import Mathlib

/-!
Verification development for the order-execution engine of the
solana-market-maker repository.

The embedding below is a shallow model, translated statement by statement
from the TypeScript source:

* `OrderRouter` (the section of `src/config/ConfigManager.ts` holding
  `src/engine/OrderRouter.ts`): `executeOrder`, `buildJitoBundle`,
  `calculateDynamicTip`, `checkCircuitBreaker`, `handleBundleError`,
  `updateMarketState`.
* `MarketStateManager` (the section of `src/monitoring/GrafanaIntegration.ts`
  holding `src/state/MarketStateManager.ts`): `updatePosition`,
  `updateLiquidity`, `getMarketState`, backed by a Redis hash per token.
* `OrderDeduplicator` (`src/unnamed/part_014`): `checkDuplicate`,
  `markProcessed` over a Redis bloom filter.

Modelling conventions:

* JavaScript numbers are modelled as rationals; `Math.floor` becomes
  `Int.floor`.  Machine floating point rounding is not modelled; none of
  the results below depends on it.
* Each call of `Date.now()` made during one order attempt is idealised to
  a single instant: `executeOrder` receives the start time, a per-attempt
  clock `attemptTimes`, and the end time as explicit parameters.
* External collaborators (transaction builder, Jito relay, bundle
  monitor) are modelled by an oracle assigning each attempt number an
  `AttemptResult`.  A `buildFailure` occurs before any network call, a
  `submitFailure` at or after the bundle submission, so the number of
  network submissions is observable in the model.
* The Redis key-value state used by the router (circuit breaker error
  count and trip timestamp, per-token market hash) is part of
  `RouterState`; `hincrbyfloat` on an absent hash field treats it as 0,
  exactly as Redis does.
* The bloom filter behind `OrderDeduplicator` is idealised as an exact
  set of identifiers (no false positives, no false negatives).
-/

/-- Side of an order: `type: buy | sell` in `OrderRequest`. -/
inductive Side where
  | buy
  | sell
deriving DecidableEq, Repr

/-- `OrderRequest` from OrderRouter.ts: `{type, tokenAddress, amountLamports,
maxSlippageBps, volatilityFactor?}`.  `volatilityFactor` is optional. -/
structure OrderRequest where
  side : Side
  tokenAddress : String
  amountLamports : ℚ
  maxSlippageBps : ℚ
  volatilityFactor : Option ℚ
deriving Repr

/-- Outcome of one attempt, supplied by the collaborator oracle.
`buildFailure` models a throw in `prepareTransaction` (before any network
call); `submitFailure` models a throw in `sendAndConfirmJitoBundle` or
`monitorBundle` (at or after the network call); `confirmed` carries the
bundle id that `monitorBundle` resolves with. -/
inductive AttemptResult where
  | confirmed (bundleId : String)
  | buildFailure (msg : String)
  | submitFailure (msg : String)
deriving DecidableEq, Repr

/-- The error message a failed attempt would throw, `none` for a confirmed
attempt. -/
def failMsg : AttemptResult → Option String
  | AttemptResult.confirmed _ => none
  | AttemptResult.buildFailure m => some m
  | AttemptResult.submitFailure m => some m

/-- `OrderResult` from OrderRouter.ts: `{success, transactionId?, error?,
executionTime?, bundleMetrics?}`.  Of `bundleMetrics` we keep the tip
amount; there is no attempt-count field in the source interface. -/
structure OrderResult where
  success : Bool
  transactionId : Option String
  error : Option String
  executionTime : ℚ
  tipAmount : Option ℤ
deriving Repr

/-- The Redis hash `market:<token>` written by MarketStateManager.  A field
is `none` when it was never stored (absent from the hash). -/
structure MarketHash where
  positionSize : Option ℚ
  liquidity : Option ℚ
  volatility : Option ℚ
  lastUpdated : Option ℚ
deriving DecidableEq, Repr

/-- The hash with no stored field: `hgetall` returns `{}`. -/
def MarketHash.empty : MarketHash := ⟨none, none, none, none⟩

/-- `Object.keys(state).length === 0` in `getMarketState`. -/
def MarketHash.isEmptyHash (m : MarketHash) : Bool :=
  m.positionSize.isNone && m.liquidity.isNone &&
    m.volatility.isNone && m.lastUpdated.isNone

/-- `MarketState` interface from MarketStateManager.ts. -/
structure MarketState where
  tokenAddress : String
  positionSize : ℚ
  liquidity : ℚ
  volatility : ℚ
  lastUpdated : ℚ
deriving DecidableEq, Repr

/-- Redis `hincrbyfloat`: an absent field counts as 0. -/
def hincrbyfloat (field : Option ℚ) (amount : ℚ) : Option ℚ :=
  some (field.getD 0 + amount)

/-- `MarketStateManager.updatePosition`: `hincrbyfloat positionSize amount`
then `hset lastUpdated now`. -/
def updatePosition (m : MarketHash) (amount now : ℚ) : MarketHash :=
  { m with positionSize := hincrbyfloat m.positionSize amount,
           lastUpdated := some now }

/-- `MarketStateManager.updateLiquidity`: `hincrbyfloat liquidity amount`
then `hset lastUpdated now`. -/
def updateLiquidity (m : MarketHash) (amount now : ℚ) : MarketHash :=
  { m with liquidity := hincrbyfloat m.liquidity amount,
           lastUpdated := some now }

/-- `MarketStateManager.getMarketState`: `hgetall`; `null` when the hash is
empty, otherwise each absent field parses via `parseFloat(x or zero)` to 0. -/
def getMarketState (token : String) (m : MarketHash) : Option MarketState :=
  if m.isEmptyHash then none
  else some ⟨token, m.positionSize.getD 0, m.liquidity.getD 0,
             m.volatility.getD 0, m.lastUpdated.getD 0⟩

/-- State of `OrderDeduplicator` (part_014): the Redis bloom filter,
idealised as the exact set of added identifiers. -/
structure DedupState where
  seen : List String
deriving DecidableEq, Repr

/-- `OrderDeduplicator.checkDuplicate`: `bloom.exists(orderId)`. -/
def checkDuplicate (d : DedupState) (orderId : String) : Bool :=
  d.seen.contains orderId

/-- `OrderDeduplicator.markProcessed`: `bloom.add(orderId)` (the TTL refresh
has no effect in the untimed model). -/
def markProcessed (d : DedupState) (orderId : String) : DedupState :=
  ⟨orderId :: d.seen⟩

/-- The configuration read by OrderRouter: `circuitBreakerThreshold` and
`circuitBreakerTimeout` from `OrderRouterConfig`, `maxRetries` from
`botConfig.solana`, `tipLamports` from `botConfig.jito`. -/
structure RouterConfig where
  circuitBreakerThreshold : ℕ
  circuitBreakerTimeout : ℚ
  maxRetries : ℕ
  tipLamports : ℚ
deriving Repr

/-- Mutable state of one OrderRouter together with its Redis keys:
`circuitBreakerActive`, `lastBundleSentAt`, `recentTips` are instance
fields; `errorCount` is the Redis key `circuit_breaker_error_count`
(absent reads as 0, modelled by starting at 0); `lastTriggered` is the
Redis key `circuit_breaker_last_triggered` (absent parses as 0);
`market` is the per-token Redis hash of MarketStateManager. -/
structure RouterState where
  circuitBreakerActive : Bool
  lastBundleSentAt : ℚ
  recentTips : List ℚ
  errorCount : ℕ
  lastTriggered : ℚ
  market : String → MarketHash

/-- The EMA reduction in `calculateDynamicTip`:
`recentTips.reduce((a, b) => a * 0.8 + b * 0.2, baseTip)`. -/
def emaOf (baseTip : ℚ) (tips : List ℚ) : ℚ :=
  tips.foldl (fun a b => a * (4/5) + b * (1/5)) baseTip

/-- `OrderRouter.calculateDynamicTip`: EMA of `recentTips` seeded with the
configured base tip, scaled by the volatility factor and the idle-time
factor `1 + (now - lastBundleSentAt) / 10000`, floored; the result is
pushed onto `recentTips` with FIFO eviction beyond 100 entries, and
`lastBundleSentAt` is set to now.  Returns the tip and the new state. -/
def calculateDynamicTip (cfg : RouterConfig) (s : RouterState)
    (now volatilityFactor : ℚ) : ℤ × RouterState :=
  let ema := emaOf cfg.tipLamports s.recentTips
  let adjustedTip : ℤ :=
    ⌊ema * volatilityFactor * (1 + (now - s.lastBundleSentAt) / 10000)⌋
  let pushed := s.recentTips ++ [(adjustedTip : ℚ)]
  let tips := if 100 < pushed.length then pushed.drop 1 else pushed
  (adjustedTip, { s with recentTips := tips, lastBundleSentAt := now })

/-- The per-attempt escalation multiplier in `buildJitoBundle`:
`Math.min(attempt * 0.5, 3)`. -/
def tipMultiplier (attempt : ℕ) : ℚ :=
  min ((attempt : ℚ) * (1/2)) 3

/-- `request.volatilityFactor or 1` as JavaScript `||` evaluates it: an
absent factor and a zero factor both fall back to 1. -/
def volFactor (req : OrderRequest) : ℚ :=
  match req.volatilityFactor with
  | none => 1
  | some v => if v = 0 then 1 else v

/-- The tip computation of `OrderRouter.buildJitoBundle` on one attempt:
`optimizedTip = Math.floor(calculateDynamicTip(vol) * Math.min(attempt * 0.5, 3))`.
Returns the optimized tip and the estimator state after the call. -/
def attemptTip (cfg : RouterConfig) (s : RouterState) (now : ℚ)
    (req : OrderRequest) (attempt : ℕ) : ℤ × RouterState :=
  let r := calculateDynamicTip cfg s now (volFactor req)
  (⌊(r.1 : ℚ) * tipMultiplier attempt⌋, r.2)

/-- `OrderRouter.checkCircuitBreaker`: when the breaker is active, it is
deactivated if `now - lastTriggered > timeout`, otherwise the call throws
`Circuit breaker active - trading suspended`.  The thrown message is
returned as `some`. -/
def checkCircuitBreaker (cfg : RouterConfig) (s : RouterState) (now : ℚ) :
    Option String × RouterState :=
  if s.circuitBreakerActive then
    if cfg.circuitBreakerTimeout < now - s.lastTriggered then
      (none, { s with circuitBreakerActive := false })
    else
      (some "Circuit breaker active - trading suspended", s)
  else (none, s)

/-- `OrderRouter.handleBundleError`: only when `attempt >= maxAttempts` the
Redis error count is incremented, and when it reaches the threshold the
breaker trips and `circuit_breaker_last_triggered` is set to now. -/
def handleBundleError (cfg : RouterConfig) (maxAttempts : ℕ)
    (s : RouterState) (attempt : ℕ) (now : ℚ) : RouterState :=
  if maxAttempts ≤ attempt then
    if cfg.circuitBreakerThreshold ≤ s.errorCount + 1 then
      { s with errorCount := s.errorCount + 1, circuitBreakerActive := true,
               lastTriggered := now }
    else { s with errorCount := s.errorCount + 1 }
  else s

/-- The signed delta of `OrderRouter.updateMarketState`:
`type === buy ? amountLamports / 1e9 : -(amountLamports / 1e9)`. -/
def signedAmount (req : OrderRequest) : ℚ :=
  match req.side with
  | Side.buy => req.amountLamports / 1000000000
  | Side.sell => -(req.amountLamports / 1000000000)

/-- The two MarketStateManager writes of `updateMarketState` on one hash:
`updatePosition` then `updateLiquidity`, both with the signed delta. -/
def applyDelta (m : MarketHash) (amount now : ℚ) : MarketHash :=
  updateLiquidity (updatePosition m amount now) amount now

/-- `OrderRouter.updateMarketState`: apply the signed delta to the
position and the liquidity of the requested token via MarketStateManager. -/
def updateMarketState (req : OrderRequest) (s : RouterState) (now : ℚ) :
    RouterState :=
  { s with market := fun t =>
      if t = req.tokenAddress then applyDelta (s.market t) (signedAmount req) now
      else s.market t }

/-- Failure `OrderResult` built in the outer catch of `executeOrder`. -/
def mkFailResult (msg : String) (elapsed : ℚ) : OrderResult :=
  ⟨false, none, some msg, elapsed, none⟩

/-- The retry loop of `executeOrder` (`while attempt < maxAttempts`),
written with explicit fuel; `attempt` is the number of attempts already
made.  Returns the result, the final state, and the number of bundle
submissions (network calls) made.  The fuel-exhausted branch mirrors the
unreachable `throw new Error(Max retries exceeded)` after the loop. -/
def attemptLoop (cfg : RouterConfig) (req : OrderRequest)
    (oracle : ℕ → AttemptResult) (attemptTimes : ℕ → ℚ) (elapsed : ℚ)
    (maxAttempts : ℕ) :
    ℕ → ℕ → RouterState → ℕ → OrderResult × RouterState × ℕ
  | 0, _, s, subs => (mkFailResult "Max retries exceeded" elapsed, s, subs)
  | fuel + 1, attempt, s, subs =>
    let a := attempt + 1
    let now := attemptTimes a
    match oracle a with
    | AttemptResult.buildFailure msg =>
      let s1 := handleBundleError cfg maxAttempts s a now
      if a = maxAttempts then (mkFailResult msg elapsed, s1, subs)
      else attemptLoop cfg req oracle attemptTimes elapsed maxAttempts
        fuel a s1 subs
    | AttemptResult.submitFailure msg =>
      let s1 := (attemptTip cfg s now req a).2
      let s2 := handleBundleError cfg maxAttempts s1 a now
      if a = maxAttempts then (mkFailResult msg elapsed, s2, subs + 1)
      else attemptLoop cfg req oracle attemptTimes elapsed maxAttempts
        fuel a s2 (subs + 1)
    | AttemptResult.confirmed bundleId =>
      let tip := attemptTip cfg s now req a
      let s2 := updateMarketState req tip.2 now
      (⟨true, some bundleId, none, elapsed, some tip.1⟩, s2, subs + 1)

/-- `OrderRouter.executeOrder`: circuit-breaker gate, then the retry loop
with `maxAttempts = botConfig.solana.maxRetries + 1`.  A thrown breaker
rejection is caught by the outer catch and returned as a failure result
with zero submissions. -/
def executeOrder (cfg : RouterConfig) (req : OrderRequest)
    (oracle : ℕ → AttemptResult) (startTime : ℚ) (attemptTimes : ℕ → ℚ)
    (endTime : ℚ) (s : RouterState) : OrderResult × RouterState × ℕ :=
  let maxAttempts := cfg.maxRetries + 1
  let elapsed := endTime - startTime
  match checkCircuitBreaker cfg s startTime with
  | (some msg, s1) => (mkFailResult msg elapsed, s1, 0)
  | (none, s1) =>
    attemptLoop cfg req oracle attemptTimes elapsed maxAttempts
      maxAttempts 0 s1 0

/-- The position value for a token as read back from the market hash. -/
def posVal (s : RouterState) (token : String) : ℚ :=
  ((s.market token).positionSize).getD 0

/-- The liquidity value for a token as read back from the market hash. -/
def liqVal (s : RouterState) (token : String) : ℚ :=
  ((s.market token).liquidity).getD 0

/-! ### Concrete example inputs shared by witnesses and counterexamples -/

/-- Example configuration: circuit-breaker threshold 2, cooldown 30000 ms,
one retry (two attempts), base tip 10000 lamports. -/
def cfgEx : RouterConfig := ⟨2, 30000, 1, 10000⟩

/-- Example buy request over 1.5 SOL. -/
def reqEx : OrderRequest := ⟨Side.buy, "tok", 1500000000, 50, some 1⟩

/-- Fresh router state as the constructor leaves it: breaker inactive,
`lastBundleSentAt = 0`, `recentTips = [tipLamports]`, empty market. -/
def stEx : RouterState := ⟨false, 0, [10000], 0, 0, fun _ => MarketHash.empty⟩

/-- Oracle under which every attempt is rejected by the relay. -/
def allFailOracle : ℕ → AttemptResult :=
  fun _ => AttemptResult.submitFailure "Relay rejected"

/-- Oracle under which every attempt confirms. -/
def allConfirmOracle : ℕ → AttemptResult :=
  fun _ => AttemptResult.confirmed "bundle-1"

/-- A clock that stands still at 0. -/
def zeroClock : ℕ → ℚ := fun _ => 0

/-- Oracle under which attempt 1 is rejected by the relay and attempt 2
confirms (the spec's confirm-after-retry shape). -/
def failThenConfirmOracle : ℕ → AttemptResult := fun k =>
  if k ≤ 1 then AttemptResult.submitFailure "Relay rejected"
  else AttemptResult.confirmed "bundle-2"

/-- Fresh state except that the cumulative breaker error count is 5. -/
def stErr5 : RouterState := ⟨false, 0, [10000], 5, 0, fun _ => MarketHash.empty⟩

/-- A tripped-breaker state: active, tripped at time 0, count 2. -/
def stTripped : RouterState := ⟨true, 0, [10000], 2, 0, fun _ => MarketHash.empty⟩

/-- A deduplicator that has already seen the identifier `order-1`. -/
def dedupEx : DedupState := ⟨["order-1"]⟩

/-- First probe order: every attempt fails, starting from the fresh state. -/
def probeRun1 : OrderResult × RouterState × ℕ :=
  executeOrder cfgEx reqEx allFailOracle 0 zeroClock 5 stEx

/-- Second probe order: confirms, starting from the state `probeRun1` left. -/
def probeRun2 : OrderResult × RouterState × ℕ :=
  executeOrder cfgEx reqEx allConfirmOracle 0 zeroClock 5 probeRun1.2.1

/-- Third probe order: every attempt fails, from the state `probeRun2` left. -/
def probeRun3 : OrderResult × RouterState × ℕ :=
  executeOrder cfgEx reqEx allFailOracle 0 zeroClock 5 probeRun2.2.1

/-- A confirming order run from the fresh state. -/
def plainRun : OrderResult × RouterState × ℕ :=
  executeOrder cfgEx reqEx allConfirmOracle 0 zeroClock 5 stEx

/-- A confirming order run from the state whose breaker count is 5. -/
def countRun : OrderResult × RouterState × ℕ :=
  executeOrder cfgEx reqEx allConfirmOracle 0 zeroClock 5 stErr5

/-! ### Fee estimator lemmas -/

/-- The EMA reduction stays nonnegative on a nonnegative seed and
nonnegative history. -/
theorem emaOf_nonneg (baseTip : ℚ) (tips : List ℚ) (h0 : 0 ≤ baseTip)
    (h : ∀ x ∈ tips, 0 ≤ x) : 0 ≤ emaOf baseTip tips := by
  induction tips generalizing baseTip with
  | nil => exact h0
  | cons y ys ih =>
    have hy : 0 ≤ y := h y (List.mem_cons_self y ys)
    have hys : ∀ x ∈ ys, 0 ≤ x := fun x hx => h x (List.mem_cons_of_mem y hx)
    have : 0 ≤ baseTip * (4/5) + y * (1/5) := by positivity
    simpa [emaOf] using ih (baseTip * (4/5) + y * (1/5)) this hys

/-- The idle-time factor is nonnegative whenever the clock has not run
backwards since the last bundle. -/
theorem idleFactor_nonneg (s : RouterState) (now : ℚ)
    (h : s.lastBundleSentAt ≤ now) :
    0 ≤ 1 + (now - s.lastBundleSentAt) / 10000 := by
  have : 0 ≤ now - s.lastBundleSentAt := by linarith
  positivity

/-- C7 (helper): the returned tip is monotone in the volatility factor for
a fixed state. -/
theorem calculateDynamicTip_mono_helper (cfg : RouterConfig)
    (s : RouterState) (now v1 v2 : ℚ) (hbase : 0 ≤ cfg.tipLamports)
    (htips : ∀ x ∈ s.recentTips, 0 ≤ x) (hnow : s.lastBundleSentAt ≤ now)
    (hv : v1 ≤ v2) :
    (calculateDynamicTip cfg s now v1).1 ≤ (calculateDynamicTip cfg s now v2).1 := by
  have hema : 0 ≤ emaOf cfg.tipLamports s.recentTips :=
    emaOf_nonneg cfg.tipLamports s.recentTips hbase htips
  have hidle : 0 ≤ 1 + (now - s.lastBundleSentAt) / 10000 :=
    idleFactor_nonneg s now hnow
  apply Int.floor_le_floor
  have h1 : emaOf cfg.tipLamports s.recentTips * v1 ≤
      emaOf cfg.tipLamports s.recentTips * v2 :=
    mul_le_mul_of_nonneg_left hv hema
  exact mul_le_mul_of_nonneg_right h1 hidle

/-- C6 (helper): the returned tip is nonnegative on nonnegative inputs. -/
theorem calculateDynamicTip_nonneg_helper (cfg : RouterConfig)
    (s : RouterState) (now v : ℚ) (hbase : 0 ≤ cfg.tipLamports)
    (htips : ∀ x ∈ s.recentTips, 0 ≤ x) (hnow : s.lastBundleSentAt ≤ now)
    (hv : 0 ≤ v) : 0 ≤ (calculateDynamicTip cfg s now v).1 := by
  have hema : 0 ≤ emaOf cfg.tipLamports s.recentTips :=
    emaOf_nonneg cfg.tipLamports s.recentTips hbase htips
  have hidle : 0 ≤ 1 + (now - s.lastBundleSentAt) / 10000 :=
    idleFactor_nonneg s now hnow
  have : (0 : ℚ) ≤ emaOf cfg.tipLamports s.recentTips * v *
      (1 + (now - s.lastBundleSentAt) / 10000) := by positivity
  exact Int.le_floor.mpr (by simpa using this)

/-- C9 (helper): one estimator call keeps the rolling history within the
fixed capacity of 100, evicting the oldest entry first when full. -/
theorem calculateDynamicTip_history_helper (cfg : RouterConfig)
    (s : RouterState) (now v : ℚ) (h : s.recentTips.length ≤ 100) :
    ((calculateDynamicTip cfg s now v).2.recentTips.length ≤ 100) ∧
    (s.recentTips.length = 100 →
      (calculateDynamicTip cfg s now v).2.recentTips =
        s.recentTips.drop 1 ++ [((calculateDynamicTip cfg s now v).1 : ℚ)]) ∧
    (s.recentTips.length < 100 →
      (calculateDynamicTip cfg s now v).2.recentTips =
        s.recentTips ++ [((calculateDynamicTip cfg s now v).1 : ℚ)]) := by
  rcases lt_or_eq_of_le h with hlt | heq
  · refine ⟨?_, fun h100 => absurd h100 (Nat.ne_of_lt hlt), fun _ => ?_⟩
    · simp only [calculateDynamicTip]
      have : ¬ 100 < s.recentTips.length + 1 := by omega
      simp [this]
      omega
    · simp only [calculateDynamicTip]
      have : ¬ 100 < s.recentTips.length + 1 := by omega
      simp [this]
  · refine ⟨?_, fun _ => ?_, fun h100 => absurd heq (by omega)⟩
    · simp only [calculateDynamicTip]
      have : 100 < s.recentTips.length + 1 := by omega
      simp [this]
      omega
    · simp only [calculateDynamicTip]
      have h1 : 100 < s.recentTips.length + 1 := by omega
      have h2 : 1 ≤ s.recentTips.length := by omega
      simp [h1, List.drop_append_of_le_length h2]

/-- The emptiness test of `getMarketState` recognises exactly the hash
with no stored field. -/
theorem isEmptyHash_iff (m : MarketHash) :
    m.isEmptyHash = true ↔ m = MarketHash.empty := by
  rcases m with ⟨p, l, v, u⟩
  simp only [MarketHash.isEmptyHash, MarketHash.empty, Bool.and_eq_true,
    Option.isNone_iff_eq_none, MarketHash.mk.injEq]
  tauto

/-- C10 (helper): `getMarketState` returns `null` exactly on the empty
hash, and otherwise defaults every absent field to 0. -/
theorem getMarketState_spec_helper (token : String) (m : MarketHash) :
    (getMarketState token m = none ↔ m = MarketHash.empty) ∧
    (m ≠ MarketHash.empty →
      getMarketState token m =
        some ⟨token, m.positionSize.getD 0, m.liquidity.getD 0,
              m.volatility.getD 0, m.lastUpdated.getD 0⟩) := by
  cases hE : m.isEmptyHash with
  | true =>
    have hm : m = MarketHash.empty := (isEmptyHash_iff m).mp hE
    refine ⟨⟨fun _ => hm, fun _ => ?_⟩, fun hne => absurd hm hne⟩
    simp [getMarketState, hE]
  | false =>
    have hm : m ≠ MarketHash.empty := fun h => by
      rw [(isEmptyHash_iff m).mpr h] at hE
      exact Bool.true_eq_false.mp hE
    refine ⟨⟨fun h => ?_, fun h => absurd h hm⟩, fun _ => ?_⟩
    · simp [getMarketState, hE] at h
    · simp [getMarketState, hE]

/-! ### Router state preservation lemmas -/

/-- An estimator call touches only `recentTips` and `lastBundleSentAt`. -/
theorem calculateDynamicTip_preserves (cfg : RouterConfig) (s : RouterState)
    (now v : ℚ) :
    (calculateDynamicTip cfg s now v).2.circuitBreakerActive =
        s.circuitBreakerActive ∧
    (calculateDynamicTip cfg s now v).2.errorCount = s.errorCount ∧
    (calculateDynamicTip cfg s now v).2.lastTriggered = s.lastTriggered ∧
    (calculateDynamicTip cfg s now v).2.market = s.market :=
  ⟨rfl, rfl, rfl, rfl⟩

/-- The bundle-building tip call carries the estimator state through. -/
theorem attemptTip_snd (cfg : RouterConfig) (s : RouterState) (now : ℚ)
    (req : OrderRequest) (attempt : ℕ) :
    (attemptTip cfg s now req attempt).2 =
      (calculateDynamicTip cfg s now (volFactor req)).2 := rfl

/-- Before the final attempt, `handleBundleError` is a no-op on the state
(only the backoff sleep happens). -/
theorem handleBundleError_lt (cfg : RouterConfig) (maxA : ℕ)
    (s : RouterState) (a : ℕ) (now : ℚ) (h : a < maxA) :
    handleBundleError cfg maxA s a now = s := by
  simp [handleBundleError, Nat.not_le.mpr h]

/-- `handleBundleError` never touches the market hash or the estimator. -/
theorem handleBundleError_preserves (cfg : RouterConfig) (maxA : ℕ)
    (s : RouterState) (a : ℕ) (now : ℚ) :
    (handleBundleError cfg maxA s a now).market = s.market ∧
    (handleBundleError cfg maxA s a now).recentTips = s.recentTips ∧
    (handleBundleError cfg maxA s a now).lastBundleSentAt =
      s.lastBundleSentAt := by
  unfold handleBundleError
  split_ifs <;> exact ⟨rfl, rfl, rfl⟩

/-- On the final attempt, `handleBundleError` increments the cumulative
error count and trips the breaker exactly when the count reaches the
threshold, stamping the trip time. -/
theorem handleBundleError_at_max (cfg : RouterConfig) (maxA : ℕ)
    (s : RouterState) (now : ℚ) :
    (handleBundleError cfg maxA s maxA now).errorCount = s.errorCount + 1 ∧
    (handleBundleError cfg maxA s maxA now).circuitBreakerActive =
      (s.circuitBreakerActive ||
        decide (cfg.circuitBreakerThreshold ≤ s.errorCount + 1)) ∧
    (handleBundleError cfg maxA s maxA now).lastTriggered =
      (if cfg.circuitBreakerThreshold ≤ s.errorCount + 1 then now
       else s.lastTriggered) := by
  unfold handleBundleError
  simp only [le_refl, if_true]
  split_ifs with h <;> simp [h]

/-! ### Retry-loop lemmas -/

/-- Unfolding of the loop on a first attempt that confirms: the bundle is
submitted once, the market delta is applied, and the success result is
returned immediately. -/
theorem attemptLoop_confirm_first (cfg : RouterConfig) (req : OrderRequest)
    (oracle : ℕ → AttemptResult) (ts : ℕ → ℚ) (elapsed : ℚ)
    (maxA fuel a : ℕ) (s : RouterState) (subs : ℕ) (bid : String)
    (h : oracle (a + 1) = AttemptResult.confirmed bid) :
    attemptLoop cfg req oracle ts elapsed maxA (fuel + 1) a s subs =
      (⟨true, some bid, none, elapsed,
        some (attemptTip cfg s (ts (a + 1)) req (a + 1)).1⟩,
       updateMarketState req (attemptTip cfg s (ts (a + 1)) req (a + 1)).2
         (ts (a + 1)),
       subs + 1) := by
  simp [attemptLoop, h]


/-- When every attempt the loop can make fails, the loop returns a failure
result whose error is the message of the final attempt, leaves the market
untouched, increments the cumulative error count once, and trips the
breaker exactly when the count reaches the threshold. -/
theorem attemptLoop_allFail (cfg : RouterConfig) (req : OrderRequest)
    (oracle : ℕ → AttemptResult) (ts : ℕ → ℚ) (elapsed : ℚ) (maxA : ℕ) :
    ∀ (fuel a : ℕ) (s : RouterState) (subs : ℕ),
      a + fuel = maxA → 1 ≤ fuel →
      (∀ k, a < k → k ≤ maxA → (failMsg (oracle k)).isSome = true) →
      (attemptLoop cfg req oracle ts elapsed maxA fuel a s subs).1.success
          = false ∧
      (attemptLoop cfg req oracle ts elapsed maxA fuel a s subs).1.error
          = failMsg (oracle maxA) ∧
      (attemptLoop cfg req oracle ts elapsed maxA fuel a s
          subs).1.executionTime = elapsed ∧
      (attemptLoop cfg req oracle ts elapsed maxA fuel a s subs).2.1.market
          = s.market ∧
      (attemptLoop cfg req oracle ts elapsed maxA fuel a s
          subs).2.1.errorCount = s.errorCount + 1 ∧
      (attemptLoop cfg req oracle ts elapsed maxA fuel a s
          subs).2.1.circuitBreakerActive =
        (s.circuitBreakerActive ||
          decide (cfg.circuitBreakerThreshold ≤ s.errorCount + 1)) ∧
      (attemptLoop cfg req oracle ts elapsed maxA fuel a s
          subs).2.1.lastTriggered =
        (if cfg.circuitBreakerThreshold ≤ s.errorCount + 1 then ts maxA
         else s.lastTriggered) := by
  intro fuel
  induction fuel with
  | zero => intro a s subs _ h1 _; omega
  | succ n ih =>
    intro a s subs hsum _ hfail
    have hk := hfail (a + 1) (Nat.lt_succ_self a) (by omega)
    by_cases hmax : a + 1 = maxA
    · -- final attempt: the loop returns the failure result
      subst hmax
      cases hor : oracle (a + 1) with
      | confirmed bid => rw [hor] at hk; simp [failMsg] at hk
      | buildFailure msg =>
        simp only [attemptLoop, hor, if_true]
        have h2 := handleBundleError_at_max cfg (a + 1) s (ts (a + 1))
        have h3 := handleBundleError_preserves cfg (a + 1) s (a + 1)
          (ts (a + 1))
        exact ⟨rfl, rfl, rfl, h3.1, h2.1, h2.2.1, h2.2.2⟩
      | submitFailure msg =>
        have hpre :=
          calculateDynamicTip_preserves cfg s (ts (a + 1)) (volFactor req)
        simp only [attemptLoop, hor, attemptTip_snd, if_true]
        have h2 := handleBundleError_at_max cfg (a + 1)
          (calculateDynamicTip cfg s (ts (a + 1)) (volFactor req)).2
          (ts (a + 1))
        have h3 := handleBundleError_preserves cfg (a + 1)
          (calculateDynamicTip cfg s (ts (a + 1)) (volFactor req)).2 (a + 1)
          (ts (a + 1))
        refine ⟨rfl, rfl, rfl, ?_, ?_, ?_, ?_⟩
        · rw [h3.1, hpre.2.2.2]
        · rw [h2.1, hpre.2.1]
        · rw [h2.2.1, hpre.1, hpre.2.1]
        · rw [h2.2.2, hpre.2.1, hpre.2.2.1]
    · -- not the final attempt: recurse
      have hsum1 : (a + 1) + n = maxA := by omega
      have hn1 : 1 ≤ n := by omega
      have hfail1 : ∀ k, a + 1 < k → k ≤ maxA →
          (failMsg (oracle k)).isSome = true :=
        fun k h1 h2 => hfail k (by omega) h2
      have hlt : a + 1 < maxA := by omega
      cases hor : oracle (a + 1) with
      | confirmed bid => rw [hor] at hk; simp [failMsg] at hk
      | buildFailure msg =>
        have hstep := handleBundleError_lt cfg maxA s (a + 1) (ts (a + 1)) hlt
        simp only [attemptLoop, hor, hstep, if_neg hmax]
        exact ih (a + 1) s subs hsum1 hn1 hfail1
      | submitFailure msg =>
        have hpre :=
          calculateDynamicTip_preserves cfg s (ts (a + 1)) (volFactor req)
        have hstep := handleBundleError_lt cfg maxA
          (calculateDynamicTip cfg s (ts (a + 1)) (volFactor req)).2 (a + 1)
          (ts (a + 1)) hlt
        simp only [attemptLoop, hor, attemptTip_snd, hstep, if_neg hmax]
        have hrec := ih (a + 1)
          (calculateDynamicTip cfg s (ts (a + 1)) (volFactor req)).2
          (subs + 1) hsum1 hn1 hfail1
        rw [hpre.1, hpre.2.1, hpre.2.2.1, hpre.2.2.2] at hrec
        exact hrec

/-- `applyDelta` adds the signed amount to position and liquidity,
reading an absent field as 0. -/
theorem applyDelta_fields (m : MarketHash) (amount now : ℚ) :
    (applyDelta m amount now).positionSize.getD 0 =
        m.positionSize.getD 0 + amount ∧
    (applyDelta m amount now).liquidity.getD 0 =
        m.liquidity.getD 0 + amount := by
  simp [applyDelta, updatePosition, updateLiquidity, hincrbyfloat]

/-- Whatever the oracle does: on a success result the loop has applied the
signed delta to the requested token exactly once, left every other token
untouched, left the breaker fields untouched, and carries a settlement
reference; on a failure result the loop has left the whole market
untouched.  Every result reports the elapsed time, and every failure
result carries an error message. -/
theorem attemptLoop_outcome (cfg : RouterConfig) (req : OrderRequest)
    (oracle : ℕ → AttemptResult) (ts : ℕ → ℚ) (elapsed : ℚ) (maxA : ℕ) :
    ∀ (fuel a : ℕ) (s : RouterState) (subs : ℕ), a + fuel = maxA →
      ((attemptLoop cfg req oracle ts elapsed maxA fuel a s subs).1.success
          = true →
        posVal (attemptLoop cfg req oracle ts elapsed maxA fuel a s
            subs).2.1 req.tokenAddress =
          posVal s req.tokenAddress + signedAmount req ∧
        liqVal (attemptLoop cfg req oracle ts elapsed maxA fuel a s
            subs).2.1 req.tokenAddress =
          liqVal s req.tokenAddress + signedAmount req ∧
        (∀ t, t ≠ req.tokenAddress →
          (attemptLoop cfg req oracle ts elapsed maxA fuel a s
              subs).2.1.market t = s.market t) ∧
        (attemptLoop cfg req oracle ts elapsed maxA fuel a s
            subs).2.1.errorCount = s.errorCount ∧
        (attemptLoop cfg req oracle ts elapsed maxA fuel a s
            subs).2.1.circuitBreakerActive = s.circuitBreakerActive ∧
        (attemptLoop cfg req oracle ts elapsed maxA fuel a s
            subs).1.error = none ∧
        ((attemptLoop cfg req oracle ts elapsed maxA fuel a s
            subs).1.transactionId).isSome = true) ∧
      ((attemptLoop cfg req oracle ts elapsed maxA fuel a s subs).1.success
          = false →
        (attemptLoop cfg req oracle ts elapsed maxA fuel a s subs).2.1.market
          = s.market ∧
        ((attemptLoop cfg req oracle ts elapsed maxA fuel a s
            subs).1.error).isSome = true) ∧
      (attemptLoop cfg req oracle ts elapsed maxA fuel a s
          subs).1.executionTime = elapsed := by
  intro fuel
  induction fuel with
  | zero =>
    intro a s subs _
    refine ⟨fun h => ?_, fun _ => ⟨rfl, rfl⟩, rfl⟩
    simp [attemptLoop, mkFailResult] at h
  | succ n ih =>
    intro a s subs hsum
    cases hor : oracle (a + 1) with
    | confirmed bid =>
      rw [attemptLoop_confirm_first cfg req oracle ts elapsed maxA n a s subs
        bid hor]
      have hpre :=
        calculateDynamicTip_preserves cfg s (ts (a + 1)) (volFactor req)
      refine ⟨fun _ => ?_, fun h => by simp at h, rfl⟩
      have hmk := attemptTip_snd cfg s (ts (a + 1)) req (a + 1)
      constructor
      · simp only [posVal, updateMarketState, if_pos rfl]
        rw [hmk, hpre.2.2.2]
        exact (applyDelta_fields (s.market req.tokenAddress)
          (signedAmount req) (ts (a + 1))).1
      constructor
      · simp only [liqVal, updateMarketState, if_pos rfl]
        rw [hmk, hpre.2.2.2]
        exact (applyDelta_fields (s.market req.tokenAddress)
          (signedAmount req) (ts (a + 1))).2
      refine ⟨fun t ht => ?_, ?_, ?_, rfl, rfl⟩
      · simp only [updateMarketState, if_neg ht]
        rw [hmk, hpre.2.2.2]
      · show (updateMarketState req _ _).errorCount = s.errorCount
        simp only [updateMarketState]
        rw [hmk, hpre.2.1]
      · show (updateMarketState req _ _).circuitBreakerActive =
          s.circuitBreakerActive
        simp only [updateMarketState]
        rw [hmk, hpre.1]
    | buildFailure msg =>
      by_cases hmax : a + 1 = maxA
      · subst hmax
        simp only [attemptLoop, hor, if_true]
        have h3 := handleBundleError_preserves cfg (a + 1) s (a + 1)
          (ts (a + 1))
        exact ⟨fun h => by simp [mkFailResult] at h,
          fun _ => ⟨h3.1, rfl⟩, rfl⟩
      · have hstep := handleBundleError_lt cfg maxA s (a + 1) (ts (a + 1))
          (by omega)
        simp only [attemptLoop, hor, hstep, if_neg hmax]
        exact ih (a + 1) s subs (by omega)
    | submitFailure msg =>
      have hpre :=
        calculateDynamicTip_preserves cfg s (ts (a + 1)) (volFactor req)
      by_cases hmax : a + 1 = maxA
      · subst hmax
        simp only [attemptLoop, hor, attemptTip_snd, if_true]
        have h3 := handleBundleError_preserves cfg (a + 1)
          (calculateDynamicTip cfg s (ts (a + 1)) (volFactor req)).2 (a + 1)
          (ts (a + 1))
        refine ⟨fun h => by simp [mkFailResult] at h,
          fun _ => ⟨?_, rfl⟩, rfl⟩
        rw [h3.1, hpre.2.2.2]
      · have hstep := handleBundleError_lt cfg maxA
          (calculateDynamicTip cfg s (ts (a + 1)) (volFactor req)).2 (a + 1)
          (ts (a + 1)) (by omega)
        simp only [attemptLoop, hor, attemptTip_snd, hstep, if_neg hmax]
        have hrec := ih (a + 1)
          (calculateDynamicTip cfg s (ts (a + 1)) (volFactor req)).2
          (subs + 1) (by omega)
        rw [hpre.1, hpre.2.1, hpre.2.2.2] at hrec
        simpa only [posVal, liqVal, hpre.2.2.2] using hrec

/-! ### Circuit-breaker gate lemmas -/

/-- A tripped breaker within its cooldown rejects the order outright: the
thrown rejection is caught and returned, the state is untouched, and no
bundle is submitted. -/
theorem executeOrder_blocked (cfg : RouterConfig) (req : OrderRequest)
    (oracle : ℕ → AttemptResult) (startT : ℚ) (ts : ℕ → ℚ) (endT : ℚ)
    (s : RouterState) (hact : s.circuitBreakerActive = true)
    (hcool : startT - s.lastTriggered ≤ cfg.circuitBreakerTimeout) :
    executeOrder cfg req oracle startT ts endT s =
      (mkFailResult "Circuit breaker active - trading suspended"
        (endT - startT), s, 0) := by
  simp [executeOrder, checkCircuitBreaker, hact, not_lt.mpr hcool]

/-- With the breaker inactive, `executeOrder` is the retry loop. -/
theorem executeOrder_gate_inactive (cfg : RouterConfig) (req : OrderRequest)
    (oracle : ℕ → AttemptResult) (startT : ℚ) (ts : ℕ → ℚ) (endT : ℚ)
    (s : RouterState) (hact : s.circuitBreakerActive = false) :
    executeOrder cfg req oracle startT ts endT s =
      attemptLoop cfg req oracle ts (endT - startT) (cfg.maxRetries + 1)
        (cfg.maxRetries + 1) 0 s 0 := by
  simp [executeOrder, checkCircuitBreaker, hact]

/-- Once the cooldown has elapsed, the breaker is deactivated
unconditionally, before the outcome of the next order is known, and the
retry loop runs. -/
theorem executeOrder_gate_cooldown (cfg : RouterConfig) (req : OrderRequest)
    (oracle : ℕ → AttemptResult) (startT : ℚ) (ts : ℕ → ℚ) (endT : ℚ)
    (s : RouterState) (hact : s.circuitBreakerActive = true)
    (hcool : cfg.circuitBreakerTimeout < startT - s.lastTriggered) :
    executeOrder cfg req oracle startT ts endT s =
      attemptLoop cfg req oracle ts (endT - startT) (cfg.maxRetries + 1)
        (cfg.maxRetries + 1) 0 { s with circuitBreakerActive := false } 0 := by
  simp [executeOrder, checkCircuitBreaker, hact, hcool]

/-- The submission counter never decreases through the loop. -/
theorem attemptLoop_subs_mono (cfg : RouterConfig) (req : OrderRequest)
    (oracle : ℕ → AttemptResult) (ts : ℕ → ℚ) (elapsed : ℚ) (maxA : ℕ) :
    ∀ (fuel a : ℕ) (s : RouterState) (subs : ℕ),
      subs ≤ (attemptLoop cfg req oracle ts elapsed maxA fuel a s
        subs).2.2 := by
  intro fuel
  induction fuel with
  | zero => intro a s subs; exact le_refl _
  | succ n ih =>
    intro a s subs
    cases hor : oracle (a + 1) with
    | confirmed bid =>
      rw [attemptLoop_confirm_first cfg req oracle ts elapsed maxA n a s subs
        bid hor]
      exact Nat.le_succ subs
    | buildFailure msg =>
      by_cases hmax : a + 1 = maxA
      · subst hmax
        simp only [attemptLoop, hor, if_true]
        exact le_refl _
      · simp only [attemptLoop, hor, if_neg hmax]
        exact ih (a + 1) _ subs
    | submitFailure msg =>
      by_cases hmax : a + 1 = maxA
      · subst hmax
        simp only [attemptLoop, hor, if_true]
        exact Nat.le_succ subs
      · simp only [attemptLoop, hor, if_neg hmax]
        exact le_trans (Nat.le_succ subs) (ih (a + 1) _ (subs + 1))

/-- A first attempt that reaches the relay and is rejected there still
counts as a network call: the loop reports at least one submission. -/
theorem attemptLoop_submits_first (cfg : RouterConfig) (req : OrderRequest)
    (oracle : ℕ → AttemptResult) (ts : ℕ → ℚ) (elapsed : ℚ)
    (maxA fuel a : ℕ) (s : RouterState) (subs : ℕ) (msg : String)
    (h : oracle (a + 1) = AttemptResult.submitFailure msg) :
    1 ≤ (attemptLoop cfg req oracle ts elapsed maxA (fuel + 1) a s
        subs).2.2 := by
  by_cases hmax : a + 1 = maxA
  · subst hmax
    simp only [attemptLoop, h, if_true]
    omega
  · simp only [attemptLoop, h, if_neg hmax]
    calc 1 ≤ subs + 1 := by omega
    _ ≤ _ := attemptLoop_subs_mono cfg req oracle ts elapsed maxA fuel
        (a + 1) _ (subs + 1)

/-! ### Claim theorems -/

/-- C5 (amended): in `buildJitoBundle` the fee bid on attempt `a` is the
floor of the freshly recomputed dynamic base tip times the multiplier
`min(attempt * 0.5, 3)` (escalation factor 0.5, cap 3), and for `k ≥ 1`
the multiplier on attempt `k + 1` is strictly greater than the multiplier
on attempt 1; the fee bid itself need not be strictly greater, because
the dynamic base tip is recomputed by `calculateDynamicTip` on every
attempt and can shrink (see the counterexample). -/
theorem buildJitoBundle_escalation (cfg : RouterConfig) (s : RouterState)
    (now : ℚ) (req : OrderRequest) (attempt k : ℕ) (hk : 1 ≤ k) :
    (attemptTip cfg s now req attempt).1 =
      ⌊((calculateDynamicTip cfg s now (volFactor req)).1 : ℚ) *
        tipMultiplier attempt⌋ ∧
    tipMultiplier 1 < tipMultiplier (k + 1) := by
  refine ⟨rfl, ?_⟩
  have h1 : tipMultiplier 1 = 1 / 2 := by norm_num [tipMultiplier]
  have hk1 : (1 : ℚ) ≤ (k : ℚ) := by exact_mod_cast hk
  rw [h1]
  apply lt_min
  · push_cast
    linarith
  · norm_num

/-- C5 (witness): the multiplier on attempt 2 strictly exceeds the
multiplier on attempt 1. -/
theorem buildJitoBundle_escalation_witness :
    tipMultiplier 1 < tipMultiplier 2 :=
  (buildJitoBundle_escalation cfgEx stEx 1000000 reqEx 1 1 (by norm_num)).2

/-- C5 (counterexample): from the fresh router state, with the clock at
1000000 ms, the bid on attempt 1 is 505000 lamports but the bid on
attempt 2, computed from the state attempt 1 left behind, is only 210000
lamports: the fee bid attached on attempt 2 is strictly SMALLER than on
attempt 1, against the claimed strict increase. -/
theorem buildJitoBundle_escalation_counterexample :
    (attemptTip cfgEx stEx 1000000 reqEx 1).1 = 505000 ∧
    (attemptTip cfgEx (attemptTip cfgEx stEx 1000000 reqEx 1).2 1000000
      reqEx 2).1 = 210000 ∧
    (attemptTip cfgEx (attemptTip cfgEx stEx 1000000 reqEx 1).2 1000000
      reqEx 2).1 < (attemptTip cfgEx stEx 1000000 reqEx 1).1 := by
  refine ⟨?_, ?_, ?_⟩ <;>
    norm_num [attemptTip, calculateDynamicTip, emaOf, volFactor,
      tipMultiplier, cfgEx, stEx, reqEx]

/-- C6 (amended): `calculateDynamicTip` clamps to no configured floor or
ceiling; what does hold is that the estimate is nonnegative whenever the
base tip, the history entries, the volatility factor and the elapsed idle
time are nonnegative. -/
theorem calculateDynamicTip_nonneg (cfg : RouterConfig) (s : RouterState)
    (now v : ℚ) (hbase : 0 ≤ cfg.tipLamports)
    (htips : ∀ x ∈ s.recentTips, 0 ≤ x) (hnow : s.lastBundleSentAt ≤ now)
    (hv : 0 ≤ v) : 0 ≤ (calculateDynamicTip cfg s now v).1 :=
  calculateDynamicTip_nonneg_helper cfg s now v hbase htips hnow hv

/-- C6 (witness): from the fresh state the estimate is nonnegative. -/
theorem calculateDynamicTip_nonneg_witness :
    0 ≤ (calculateDynamicTip cfgEx stEx 0 1).1 :=
  calculateDynamicTip_nonneg cfgEx stEx 0 1 (by norm_num [cfgEx])
    (by intro x hx; simp [stEx] at hx; simp [hx])
    (by norm_num [stEx]) (by norm_num)

/-- C6 (counterexample): the estimator output escapes every candidate
configured band: with volatility factor 0 it returns 0 lamports, below
the smallest configurable base tip of 1000 (`JitoConfigSchema` bounds
`tipLamports` to [1000, 100000]), and with volatility factor 100 after
1000 seconds idle it returns 101000000 lamports, above the largest
configurable base tip of 100000; the code has no clamp at all. -/
theorem calculateDynamicTip_band_counterexample :
    (calculateDynamicTip cfgEx stEx 0 0).1 = 0 ∧
    (calculateDynamicTip cfgEx stEx 1000000 100).1 = 101000000 ∧
    (calculateDynamicTip cfgEx stEx 0 0).1 < 1000 ∧
    (100000 : ℤ) < (calculateDynamicTip cfgEx stEx 1000000 100).1 := by
  refine ⟨?_, ?_, ?_, ?_⟩ <;>
    norm_num [calculateDynamicTip, emaOf, cfgEx, stEx]

/-- C7: for a fixed estimator state (fee history and last-sent
timestamp), the fee estimate is monotone nondecreasing in the volatility
factor, provided the seed tip and history are nonnegative and the clock
has not run backwards. -/
theorem calculateDynamicTip_mono (cfg : RouterConfig) (s : RouterState)
    (now v1 v2 : ℚ) (hbase : 0 ≤ cfg.tipLamports)
    (htips : ∀ x ∈ s.recentTips, 0 ≤ x) (hnow : s.lastBundleSentAt ≤ now)
    (hv : v1 ≤ v2) :
    (calculateDynamicTip cfg s now v1).1 ≤
      (calculateDynamicTip cfg s now v2).1 :=
  calculateDynamicTip_mono_helper cfg s now v1 v2 hbase htips hnow hv

/-- C7 (witness): monotone between volatility factors 1 and 2 from the
fresh state. -/
theorem calculateDynamicTip_mono_witness :
    (calculateDynamicTip cfgEx stEx 0 1).1 ≤
      (calculateDynamicTip cfgEx stEx 0 2).1 :=
  calculateDynamicTip_mono cfgEx stEx 0 1 2 (by norm_num [cfgEx])
    (by intro x hx; simp [stEx] at hx; simp [hx])
    (by norm_num [stEx]) (by norm_num)

/-- C9: each estimator call preserves the bound of 100 entries on the
rolling fee history, and eviction is FIFO: when the history is full the
oldest entry is dropped and the new tip appended; below capacity the new
tip is only appended. -/
theorem recentTips_bounded_fifo (cfg : RouterConfig) (s : RouterState)
    (now v : ℚ) (h : s.recentTips.length ≤ 100) :
    ((calculateDynamicTip cfg s now v).2.recentTips.length ≤ 100) ∧
    (s.recentTips.length = 100 →
      (calculateDynamicTip cfg s now v).2.recentTips =
        s.recentTips.drop 1 ++ [((calculateDynamicTip cfg s now v).1 : ℚ)]) ∧
    (s.recentTips.length < 100 →
      (calculateDynamicTip cfg s now v).2.recentTips =
        s.recentTips ++ [((calculateDynamicTip cfg s now v).1 : ℚ)]) :=
  calculateDynamicTip_history_helper cfg s now v h

/-- C9 (witness): from the fresh one-entry history the bound holds and
the new tip is appended. -/
theorem recentTips_bounded_fifo_witness :
    ((calculateDynamicTip cfgEx stEx 0 1).2.recentTips.length ≤ 100) ∧
    ((calculateDynamicTip cfgEx stEx 0 1).2.recentTips =
      stEx.recentTips ++ [((calculateDynamicTip cfgEx stEx 0 1).1 : ℚ)]) := by
  have h := recentTips_bounded_fifo cfgEx stEx 0 1 (by norm_num [stEx])
  exact ⟨h.1, h.2.2 (by norm_num [stEx])⟩

/-- C10: `getMarketState` returns `null` exactly when no field of the
token's hash has been stored, and otherwise returns a record whose absent
numeric fields (positionSize, liquidity, volatility, lastUpdated) default
to 0 instead of failing. -/
theorem getMarketState_null_or_defaults (token : String) (m : MarketHash) :
    (getMarketState token m = none ↔ m = MarketHash.empty) ∧
    (m ≠ MarketHash.empty →
      getMarketState token m =
        some ⟨token, m.positionSize.getD 0, m.liquidity.getD 0,
              m.volatility.getD 0, m.lastUpdated.getD 0⟩) :=
  getMarketState_spec_helper token m

/-- C10 (witness): the empty hash reads as `null`, and a hash holding
only a position of 2 reads back with every other field defaulted to 0. -/
theorem getMarketState_null_or_defaults_witness :
    getMarketState "tok" MarketHash.empty = none ∧
    getMarketState "tok" ⟨some 2, none, none, none⟩ =
      some ⟨"tok", 2, 0, 0, 0⟩ := by
  constructor
  · exact (getMarketState_null_or_defaults "tok" MarketHash.empty).1.mpr rfl
  · have h := (getMarketState_null_or_defaults "tok"
      ⟨some 2, none, none, none⟩).2 (by simp [MarketHash.empty])
    simpa using h

/-- C1 (amended): `executeOrder` performs no deduplication at all — it
takes no correlation identifier and never consults the `OrderDeduplicator`
— so even when an identifier is already reported as seen, the order is
built and submitted (one bundle submission when the first attempt
confirms and the breaker is inactive); standalone, the deduplicator does
report an identifier as seen once `markProcessed` has run. -/
theorem executeOrder_ignores_dedup (cfg : RouterConfig) (req : OrderRequest)
    (oracle : ℕ → AttemptResult) (startT : ℚ) (ts : ℕ → ℚ) (endT : ℚ)
    (s : RouterState) (d : DedupState) (orderId bid : String)
    (hseen : checkDuplicate d orderId = true)
    (hact : s.circuitBreakerActive = false)
    (hconf : oracle 1 = AttemptResult.confirmed bid) :
    (executeOrder cfg req oracle startT ts endT s).1.success = true ∧
    (executeOrder cfg req oracle startT ts endT s).1.error = none ∧
    (executeOrder cfg req oracle startT ts endT s).2.2 = 1 ∧
    checkDuplicate (markProcessed d orderId) orderId = true := by
  rw [executeOrder_gate_inactive cfg req oracle startT ts endT s hact,
    attemptLoop_confirm_first cfg req oracle ts (endT - startT)
      (cfg.maxRetries + 1) cfg.maxRetries 0 s 0 bid (by simpa using hconf)]
  refine ⟨rfl, rfl, rfl, ?_⟩
  simp [checkDuplicate, markProcessed]

/-- C1 (witness): with `order-1` already seen, a confirming order from
the fresh state still succeeds with one submission. -/
theorem executeOrder_ignores_dedup_witness :
    (executeOrder cfgEx reqEx allConfirmOracle 0 zeroClock 5 stEx).1.success
        = true ∧
    (executeOrder cfgEx reqEx allConfirmOracle 0 zeroClock 5 stEx).1.error
        = none ∧
    (executeOrder cfgEx reqEx allConfirmOracle 0 zeroClock 5 stEx).2.2 = 1 ∧
    checkDuplicate (markProcessed dedupEx "order-1") "order-1" = true :=
  executeOrder_ignores_dedup cfgEx reqEx allConfirmOracle 0 zeroClock 5 stEx
    dedupEx "order-1" "bundle-1" (by simp [checkDuplicate, dedupEx]) rfl rfl

/-- C1 (counterexample): the identifier `order-1` is already seen by the
deduplicator, yet `executeOrder` — which never consults it — executes the
order, submits one bundle, and returns success, where the claim demands a
Duplicate failure with no network call. -/
theorem executeOrder_ignores_dedup_counterexample :
    checkDuplicate dedupEx "order-1" = true ∧
    plainRun.1.success = true ∧
    plainRun.1.error = none ∧
    plainRun.2.2 = 1 := by
  refine ⟨by simp [checkDuplicate, dedupEx], ?_, ?_, ?_⟩ <;>
  · simp only [plainRun]
    rw [executeOrder_gate_inactive cfgEx reqEx allConfirmOracle 0 zeroClock 5
        stEx rfl,
      attemptLoop_confirm_first cfgEx reqEx allConfirmOracle zeroClock
        (5 - 0) (cfgEx.maxRetries + 1) cfgEx.maxRetries 0 stEx 0 "bundle-1"
        rfl]

/-- C2: for every order reaching a confirmed outcome, the instrument's
position is incremented exactly once per order by exactly the signed
intent quantity (`+amountLamports/1e9` for a buy, `-amountLamports/1e9`
for a sell, the quantity in SOL), other instruments are untouched, and
the mutation happens only on the confirmed outcome: every failure outcome
leaves the whole market unchanged. -/
theorem executeOrder_position_delta (cfg : RouterConfig)
    (req : OrderRequest) (oracle : ℕ → AttemptResult) (startT : ℚ)
    (ts : ℕ → ℚ) (endT : ℚ) (s : RouterState) :
    ((executeOrder cfg req oracle startT ts endT s).1.success = true →
      posVal (executeOrder cfg req oracle startT ts endT s).2.1
          req.tokenAddress =
        posVal s req.tokenAddress +
          (match req.side with
           | Side.buy => req.amountLamports / 1000000000
           | Side.sell => -(req.amountLamports / 1000000000)) ∧
      (∀ t, t ≠ req.tokenAddress →
        (executeOrder cfg req oracle startT ts endT s).2.1.market t =
          s.market t)) ∧
    ((executeOrder cfg req oracle startT ts endT s).1.success = false →
      (executeOrder cfg req oracle startT ts endT s).2.1.market =
        s.market) := by
  have hsig : (match req.side with
      | Side.buy => req.amountLamports / 1000000000
      | Side.sell => -(req.amountLamports / 1000000000)) =
        signedAmount req := rfl
  rw [hsig]
  cases hact : s.circuitBreakerActive with
  | false =>
    rw [executeOrder_gate_inactive cfg req oracle startT ts endT s hact]
    have h := attemptLoop_outcome cfg req oracle ts (endT - startT)
      (cfg.maxRetries + 1) (cfg.maxRetries + 1) 0 s 0 (by omega)
    exact ⟨fun hs => ⟨((h.1 hs).1), (h.1 hs).2.2.1⟩, fun hs => (h.2.1 hs).1⟩
  | true =>
    by_cases hcool : cfg.circuitBreakerTimeout < startT - s.lastTriggered
    · rw [executeOrder_gate_cooldown cfg req oracle startT ts endT s hact
        hcool]
      have h := attemptLoop_outcome cfg req oracle ts (endT - startT)
        (cfg.maxRetries + 1) (cfg.maxRetries + 1) 0
        { s with circuitBreakerActive := false } 0 (by omega)
      exact ⟨fun hs => ⟨((h.1 hs).1), (h.1 hs).2.2.1⟩, fun hs => (h.2.1 hs).1⟩
    · rw [executeOrder_blocked cfg req oracle startT ts endT s hact
        (by linarith [not_lt.mp hcool])]
      exact ⟨fun hs => by simp [mkFailResult] at hs, fun _ => rfl⟩

/-- C2 (witness): a confirmed 1.5 SOL buy moves the position of `tok`
from 0 to 1.5. -/
theorem executeOrder_position_delta_witness :
    posVal (executeOrder cfgEx reqEx allConfirmOracle 0 zeroClock 5
        stEx).2.1 "tok" = 3 / 2 := by
  have hsucc : (executeOrder cfgEx reqEx allConfirmOracle 0 zeroClock 5
      stEx).1.success = true := by
    rw [executeOrder_gate_inactive cfgEx reqEx allConfirmOracle 0 zeroClock 5
        stEx rfl,
      attemptLoop_confirm_first cfgEx reqEx allConfirmOracle zeroClock
        (5 - 0) (cfgEx.maxRetries + 1) cfgEx.maxRetries 0 stEx 0 "bundle-1"
        rfl]
  have h := ((executeOrder_position_delta cfgEx reqEx allConfirmOracle 0
    zeroClock 5 stEx).1 hsucc).1
  rw [show reqEx.tokenAddress = "tok" from rfl] at h
  rw [h]
  norm_num [posVal, stEx, reqEx, MarketHash.empty]

/-- C3: `executeOrder` is total — in the model it always returns an
`OrderResult`, mirroring the outer try/catch of the source — and for
every expected collaborator failure the outcome is populated: a breaker
rejection returns `success = false` with the breaker message; when every
attempt fails, the outcome is `success = false` with the error message of
the final attempt; and every failure outcome carries an error message. -/
theorem executeOrder_never_throws (cfg : RouterConfig) (req : OrderRequest)
    (oracle : ℕ → AttemptResult) (startT : ℚ) (ts : ℕ → ℚ) (endT : ℚ)
    (s : RouterState) :
    (s.circuitBreakerActive = true →
     startT - s.lastTriggered ≤ cfg.circuitBreakerTimeout →
      (executeOrder cfg req oracle startT ts endT s).1.success = false ∧
      (executeOrder cfg req oracle startT ts endT s).1.error =
        some "Circuit breaker active - trading suspended") ∧
    (s.circuitBreakerActive = false →
     (∀ k, 1 ≤ k → k ≤ cfg.maxRetries + 1 →
        (failMsg (oracle k)).isSome = true) →
      (executeOrder cfg req oracle startT ts endT s).1.success = false ∧
      (executeOrder cfg req oracle startT ts endT s).1.error =
        failMsg (oracle (cfg.maxRetries + 1))) ∧
    ((executeOrder cfg req oracle startT ts endT s).1.success = false →
      ((executeOrder cfg req oracle startT ts endT s).1.error).isSome
        = true) := by
  refine ⟨fun hact hcool => ?_, fun hact hfail => ?_, fun hs => ?_⟩
  · rw [executeOrder_blocked cfg req oracle startT ts endT s hact hcool]
    exact ⟨rfl, rfl⟩
  · rw [executeOrder_gate_inactive cfg req oracle startT ts endT s hact]
    have h := attemptLoop_allFail cfg req oracle ts (endT - startT)
      (cfg.maxRetries + 1) (cfg.maxRetries + 1) 0 s 0 (by omega) (by omega)
      (fun k hk1 hk2 => hfail k (by omega) hk2)
    exact ⟨h.1, h.2.1⟩
  · cases hact : s.circuitBreakerActive with
    | false =>
      rw [executeOrder_gate_inactive cfg req oracle startT ts endT s hact]
        at hs ⊢
      exact ((attemptLoop_outcome cfg req oracle ts (endT - startT)
        (cfg.maxRetries + 1) (cfg.maxRetries + 1) 0 s 0 (by omega)).2.1
        hs).2
    | true =>
      by_cases hcool : cfg.circuitBreakerTimeout < startT - s.lastTriggered
      · rw [executeOrder_gate_cooldown cfg req oracle startT ts endT s hact
          hcool] at hs ⊢
        exact ((attemptLoop_outcome cfg req oracle ts (endT - startT)
          (cfg.maxRetries + 1) (cfg.maxRetries + 1) 0
          { s with circuitBreakerActive := false } 0 (by omega)).2.1 hs).2
      · rw [executeOrder_blocked cfg req oracle startT ts endT s hact
          (by linarith [not_lt.mp hcool])]
        rfl

/-- C3 (witness): under relay rejection of every attempt the outcome is a
populated failure carrying the final rejection message. -/
theorem executeOrder_never_throws_witness :
    (executeOrder cfgEx reqEx allFailOracle 0 zeroClock 5 stEx).1.success
        = false ∧
    (executeOrder cfgEx reqEx allFailOracle 0 zeroClock 5 stEx).1.error
        = some "Relay rejected" := by
  have h := (executeOrder_never_throws cfgEx reqEx allFailOracle 0 zeroClock
    5 stEx).2.1 rfl (fun k _ _ => by simp [allFailOracle, failMsg])
  exact ⟨h.1, by simpa [allFailOracle, failMsg] using h.2⟩

/-- C4 (amended): while the breaker is active and the cooldown has not
elapsed, `executeOrder` rejects immediately with zero bundle submissions
and an unchanged state.  Once the cooldown has elapsed the breaker is
deactivated unconditionally: for EVERY oracle — whatever the outcome of
every attempt — the call is processed exactly as if the breaker had never
been tripped, so there is no single-probe half-open bookkeeping and no
dependence of the deactivation on the probing call's outcome; in
particular a failing first attempt is still submitted to the relay.  The
breaker trips when the CUMULATIVE error count — incremented once per
fully exhausted order and never reset by successes — reaches the
configured threshold. -/
theorem circuitBreaker_behavior (cfg : RouterConfig) (req : OrderRequest)
    (oracle : ℕ → AttemptResult) (startT : ℚ) (ts : ℕ → ℚ) (endT : ℚ)
    (s : RouterState) :
    (s.circuitBreakerActive = true →
     startT - s.lastTriggered ≤ cfg.circuitBreakerTimeout →
      executeOrder cfg req oracle startT ts endT s =
        (mkFailResult "Circuit breaker active - trading suspended"
          (endT - startT), s, 0)) ∧
    (s.circuitBreakerActive = true →
     cfg.circuitBreakerTimeout < startT - s.lastTriggered →
      executeOrder cfg req oracle startT ts endT s =
        executeOrder cfg req oracle startT ts endT
          { s with circuitBreakerActive := false }) ∧
    (s.circuitBreakerActive = true →
     cfg.circuitBreakerTimeout < startT - s.lastTriggered →
     ∀ msg, oracle 1 = AttemptResult.submitFailure msg →
      1 ≤ (executeOrder cfg req oracle startT ts endT s).2.2) ∧
    (s.circuitBreakerActive = false →
     (∀ k, 1 ≤ k → k ≤ cfg.maxRetries + 1 →
        (failMsg (oracle k)).isSome = true) →
      (executeOrder cfg req oracle startT ts endT s).2.1.errorCount =
        s.errorCount + 1 ∧
      (executeOrder cfg req oracle startT ts endT s).2.1.circuitBreakerActive
        = decide (cfg.circuitBreakerThreshold ≤ s.errorCount + 1)) := by
  refine ⟨fun hact hcool => ?_, fun hact hcool => ?_,
    fun hact hcool msg hsub => ?_, fun hact hfail => ?_⟩
  · exact executeOrder_blocked cfg req oracle startT ts endT s hact hcool
  · rw [executeOrder_gate_cooldown cfg req oracle startT ts endT s hact
      hcool,
      executeOrder_gate_inactive cfg req oracle startT ts endT
        { s with circuitBreakerActive := false } rfl]
  · rw [executeOrder_gate_cooldown cfg req oracle startT ts endT s hact
      hcool]
    exact attemptLoop_submits_first cfg req oracle ts (endT - startT)
      (cfg.maxRetries + 1) cfg.maxRetries 0
      { s with circuitBreakerActive := false } 0 msg (by simpa using hsub)
  · rw [executeOrder_gate_inactive cfg req oracle startT ts endT s hact]
    have h := attemptLoop_allFail cfg req oracle ts (endT - startT)
      (cfg.maxRetries + 1) (cfg.maxRetries + 1) 0 s 0 (by omega) (by omega)
      (fun k hk1 hk2 => hfail k (by omega) hk2)
    refine ⟨h.2.2.2.2.1, ?_⟩
    rw [h.2.2.2.2.2.1, hact, Bool.false_or]

/-- C4 (witness): a tripped breaker at time 0 rejects an order arriving
at time 10 (cooldown 30000 not elapsed) with zero submissions. -/
theorem circuitBreaker_behavior_witness :
    executeOrder cfgEx reqEx allConfirmOracle 10 zeroClock 15 stTripped =
      (mkFailResult "Circuit breaker active - trading suspended" (15 - 10),
        stTripped, 0) :=
  (circuitBreaker_behavior cfgEx reqEx allConfirmOracle 10 zeroClock 15
    stTripped).1 rfl (by norm_num [stTripped, cfgEx])

/-- C4 (counterexample): with threshold 2, an exhausted order (count 1),
then a SUCCESSFUL order, then another exhausted order trip the breaker:
it trips although only one failure is consecutive at that point, because
the error count is cumulative and never reset — against the claim that
the breaker trips only when the CONSECUTIVE failure count reaches the
threshold. -/
theorem circuitBreaker_consecutive_counterexample :
    probeRun2.1.success = true ∧
    probeRun2.2.1.errorCount = 1 ∧
    probeRun3.2.1.circuitBreakerActive = true ∧
    probeRun3.2.1.errorCount = 2 ∧
    cfgEx.circuitBreakerThreshold = 2 := by
  have hfail : ∀ k, (0 : ℕ) < k → k ≤ cfgEx.maxRetries + 1 →
      (failMsg (allFailOracle k)).isSome = true :=
    fun k _ _ => by simp [allFailOracle, failMsg]
  have h1 : probeRun1 = attemptLoop cfgEx reqEx allFailOracle zeroClock
      (5 - 0) (cfgEx.maxRetries + 1) (cfgEx.maxRetries + 1) 0 stEx 0 := by
    simp only [probeRun1]
    rw [executeOrder_gate_inactive cfgEx reqEx allFailOracle 0 zeroClock 5
      stEx rfl]
  have L1 := attemptLoop_allFail cfgEx reqEx allFailOracle zeroClock (5 - 0)
    (cfgEx.maxRetries + 1) (cfgEx.maxRetries + 1) 0 stEx 0 (by omega)
    (by omega) hfail
  have hec1 : probeRun1.2.1.errorCount = 1 := by
    rw [h1, L1.2.2.2.2.1]
    simp [stEx]
  have hab1 : probeRun1.2.1.circuitBreakerActive = false := by
    rw [h1, L1.2.2.2.2.2.1]
    simp [stEx, cfgEx]
  have h2 : probeRun2 =
      (⟨true, some "bundle-1", none, 5 - 0,
        some (attemptTip cfgEx probeRun1.2.1 (zeroClock 1) reqEx 1).1⟩,
       updateMarketState reqEx
         (attemptTip cfgEx probeRun1.2.1 (zeroClock 1) reqEx 1).2
         (zeroClock 1),
       0 + 1) := by
    simp only [probeRun2]
    rw [executeOrder_gate_inactive cfgEx reqEx allConfirmOracle 0 zeroClock 5
        probeRun1.2.1 hab1,
      attemptLoop_confirm_first cfgEx reqEx allConfirmOracle zeroClock
        (5 - 0) (cfgEx.maxRetries + 1) cfgEx.maxRetries 0 probeRun1.2.1 0
        "bundle-1" rfl]
  have hsucc2 : probeRun2.1.success = true := by rw [h2]
  have hec2 : probeRun2.2.1.errorCount = 1 := by
    rw [h2]
    show (attemptTip cfgEx probeRun1.2.1 (zeroClock 1) reqEx
      1).2.errorCount = 1
    rw [attemptTip_snd, (calculateDynamicTip_preserves cfgEx probeRun1.2.1
      (zeroClock 1) (volFactor reqEx)).2.1]
    exact hec1
  have hab2 : probeRun2.2.1.circuitBreakerActive = false := by
    rw [h2]
    show (attemptTip cfgEx probeRun1.2.1 (zeroClock 1) reqEx
      1).2.circuitBreakerActive = false
    rw [attemptTip_snd, (calculateDynamicTip_preserves cfgEx probeRun1.2.1
      (zeroClock 1) (volFactor reqEx)).1]
    exact hab1
  have h3 : probeRun3 = attemptLoop cfgEx reqEx allFailOracle zeroClock
      (5 - 0) (cfgEx.maxRetries + 1) (cfgEx.maxRetries + 1) 0
      probeRun2.2.1 0 := by
    simp only [probeRun3]
    rw [executeOrder_gate_inactive cfgEx reqEx allFailOracle 0 zeroClock 5
      probeRun2.2.1 hab2]
  have L3 := attemptLoop_allFail cfgEx reqEx allFailOracle zeroClock (5 - 0)
    (cfgEx.maxRetries + 1) (cfgEx.maxRetries + 1) 0 probeRun2.2.1 0
    (by omega) (by omega) hfail
  have hec3 : probeRun3.2.1.errorCount = 2 := by
    rw [h3, L3.2.2.2.2.1, hec2]
  have hab3 : probeRun3.2.1.circuitBreakerActive = true := by
    rw [h3, L3.2.2.2.2.2.1, hab2, hec2]
    simp [cfgEx]
  exact ⟨hsucc2, hec2, hab3, hec3, rfl⟩

/-- C8 (amended): every order that reaches a confirmed outcome — whatever
attempt confirms, under any oracle and from any state — has the position
and liquidity delta applied exactly once and carries a settlement
reference; the circuit breaker's failure count is NOT reset: the
cumulative error count is unchanged on every success path.  Every
outcome, success or failure, carries the measured latency
(`executionTime = endTime - startTime`), and the outcome interface has no
attempt-count field. -/
theorem executeOrder_success_path (cfg : RouterConfig) (req : OrderRequest)
    (oracle : ℕ → AttemptResult) (startT : ℚ) (ts : ℕ → ℚ) (endT : ℚ)
    (s : RouterState) :
    ((executeOrder cfg req oracle startT ts endT s).1.success = true →
      (executeOrder cfg req oracle startT ts endT s).2.1.errorCount =
        s.errorCount ∧
      ((executeOrder cfg req oracle startT ts endT
          s).1.transactionId).isSome = true ∧
      posVal (executeOrder cfg req oracle startT ts endT s).2.1
          req.tokenAddress = posVal s req.tokenAddress + signedAmount req ∧
      liqVal (executeOrder cfg req oracle startT ts endT s).2.1
          req.tokenAddress = liqVal s req.tokenAddress + signedAmount req) ∧
    (executeOrder cfg req oracle startT ts endT s).1.executionTime =
      endT - startT := by
  cases hact : s.circuitBreakerActive with
  | false =>
    rw [executeOrder_gate_inactive cfg req oracle startT ts endT s hact]
    have h := attemptLoop_outcome cfg req oracle ts (endT - startT)
      (cfg.maxRetries + 1) (cfg.maxRetries + 1) 0 s 0 (by omega)
    exact ⟨fun hs => ⟨(h.1 hs).2.2.2.1, (h.1 hs).2.2.2.2.2.2, (h.1 hs).1,
      (h.1 hs).2.1⟩, h.2.2⟩
  | true =>
    by_cases hcool : cfg.circuitBreakerTimeout < startT - s.lastTriggered
    · rw [executeOrder_gate_cooldown cfg req oracle startT ts endT s hact
        hcool]
      have h := attemptLoop_outcome cfg req oracle ts (endT - startT)
        (cfg.maxRetries + 1) (cfg.maxRetries + 1) 0
        { s with circuitBreakerActive := false } 0 (by omega)
      exact ⟨fun hs => ⟨(h.1 hs).2.2.2.1, (h.1 hs).2.2.2.2.2.2, (h.1 hs).1,
        (h.1 hs).2.1⟩, h.2.2⟩
    · rw [executeOrder_blocked cfg req oracle startT ts endT s hact
        (by linarith [not_lt.mp hcool])]
      exact ⟨fun hs => by simp [mkFailResult] at hs, rfl⟩

/-- C8 (witness): an order whose first attempt is rejected and whose
second confirms (the spec's confirm-after-retry scenario) succeeds,
carries latency 5, and leaves the breaker error count unchanged. -/
theorem executeOrder_success_path_witness :
    (executeOrder cfgEx reqEx failThenConfirmOracle 0 zeroClock 5
        stEx).1.success = true ∧
    (executeOrder cfgEx reqEx failThenConfirmOracle 0 zeroClock 5
        stEx).2.1.errorCount = stEx.errorCount ∧
    (executeOrder cfgEx reqEx failThenConfirmOracle 0 zeroClock 5
        stEx).1.executionTime = 5 - 0 := by
  have hsucc : (executeOrder cfgEx reqEx failThenConfirmOracle 0 zeroClock 5
      stEx).1.success = true := by
    rw [executeOrder_gate_inactive cfgEx reqEx failThenConfirmOracle 0
      zeroClock 5 stEx rfl]
    show (attemptLoop cfgEx reqEx failThenConfirmOracle zeroClock (5 - 0)
      (1 + 1) (1 + 1) 0 stEx 0).1.success = true
    simp [attemptLoop,
      show failThenConfirmOracle (0 + 1) =
        AttemptResult.submitFailure "Relay rejected" from rfl,
      show failThenConfirmOracle (0 + 1 + 1) =
        AttemptResult.confirmed "bundle-2" from rfl]
  have h := executeOrder_success_path cfgEx reqEx failThenConfirmOracle 0
    zeroClock 5 stEx
  exact ⟨hsucc, (h.1 hsucc).1, h.2⟩

/-- C8 (counterexample): a confirmed order starting from a state whose
cumulative breaker error count is 5 still reports 5 afterwards — the
success path performs no reset to zero, against the claim. -/
theorem executeOrder_no_reset_counterexample :
    countRun.1.success = true ∧
    countRun.2.1.errorCount = 5 ∧
    countRun.2.1.errorCount ≠ 0 := by
  have h2 : countRun =
      (⟨true, some "bundle-1", none, 5 - 0,
        some (attemptTip cfgEx stErr5 (zeroClock 1) reqEx 1).1⟩,
       updateMarketState reqEx
         (attemptTip cfgEx stErr5 (zeroClock 1) reqEx 1).2 (zeroClock 1),
       0 + 1) := by
    simp only [countRun]
    rw [executeOrder_gate_inactive cfgEx reqEx allConfirmOracle 0 zeroClock 5
        stErr5 rfl,
      attemptLoop_confirm_first cfgEx reqEx allConfirmOracle zeroClock
        (5 - 0) (cfgEx.maxRetries + 1) cfgEx.maxRetries 0 stErr5 0
        "bundle-1" rfl]
  have hec : countRun.2.1.errorCount = 5 := by
    rw [h2]
    show (attemptTip cfgEx stErr5 (zeroClock 1) reqEx 1).2.errorCount = 5
    rw [attemptTip_snd, (calculateDynamicTip_preserves cfgEx stErr5
      (zeroClock 1) (volFactor reqEx)).2.1]
    simp [stErr5]
  refine ⟨by rw [h2], hec, by rw [hec]; norm_num⟩
